import Mathlib

/-!
Shallow embedding of the pandoc-svg SVG transformation pipeline
(src/lib/resize.js, src/lib/optimize.js, src/lib/svg2to11.js,
src/lib/text2foreignObject.js, the utility module bundled with it, and the
dispatch logic of src/lib/filter.js), together with theorems settling the
frozen claims about the pipeline.

Modelling conventions, used throughout:

* The DOM tree is modelled by the inductive `Dom` below, in first-child /
  next-sibling form (exactly how a DOM is linked internally).  An element
  carries its tag, its attribute list (ordered, unique keys, as the DOM
  keeps them), its inline style declaration (`none` = no style attribute;
  `some l` = an ordered list of (property, value, priority) triples) and
  its first child; `sib` is the next sibling.  The jsdom document wrapper
  is dropped: the functions receive the `<svg>` root (the only element the
  source ever selects with `querySelector` at top level).

* JavaScript numbers are modelled as exact rationals in unreduced
  numerator/denominator form (`JQ`), with `none : Option JQ` standing for a
  non-finite result (NaN, and division by zero, which JS maps to ±Infinity;
  no claim observes the NaN/Infinity distinction).  The source pipes every
  computed dimension through `round` (= `parseFloat(x.toPrecision(10))`,
  i.e. keep 10 significant decimal digits), which is exactly the device the
  code uses to erase double-precision noise; for every concrete evaluation
  appearing below, IEEE-754 evaluation followed by that rounding and exact
  rational evaluation followed by that rounding coincide (the relative
  float error, ~1e-16, is far below the 10-digit grain and no value sits on
  a rounding boundary), so the rational model is observationally faithful.

* Number-to-string conversion follows the JS `ToString` of a double for the
  values reachable here: terminating decimals of at most 10 significant
  digits in the non-exponent range, printed with trailing zeros stripped
  and no decimal point for integers.

* The regexes of the source are compiled by hand into scanners with the
  exact leftmost-match / greedy / lazy semantics spelled out at each
  definition.  Text nodes hold raw strings; serialization escaping of
  `& < >` is not modelled (no claim's input contains markup-significant
  characters), and the external markdown converter (pandoc) together with
  the innerHTML string/parse round trip through it is modelled as a
  delegate `String → Dom` producing the parsed rich content directly (the
  spec places the parser/serializer outside the system boundary).

* JavaScript's `unit in abs2PX` membership test walks the prototype chain
  of the object literal, so it also accepts `Object.prototype` property
  names such as "toString"; the model includes those names, and the lookup
  `abs2PX[unit]` then yields a value whose numeric coercion is NaN.
-/

/-! ## JavaScript numbers as exact rationals -/

/-- Unreduced rational: numerator and positive denominator.  Kept unreduced
so every operation reduces in the kernel (no gcd). -/
abbrev JQ := Int × Int

/-- A JS number: `none` models a non-finite value (NaN / Infinity). -/
abbrev JSNum := Option JQ

def jqAdd (a b : JQ) : JQ := (a.1 * b.2 + b.1 * a.2, a.2 * b.2)

def jqMul (a b : JQ) : JQ := (a.1 * b.1, a.2 * b.2)

/-- Value comparison with 0 (denominators are positive). -/
def jqNeg (a : JQ) : Bool := a.1 < 0

def jqIsZero (a : JQ) : Bool := a.1 = 0

def jsAdd (a b : JSNum) : JSNum :=
  match a, b with
  | some x, some y => some (jqAdd x y)
  | _, _ => none

def jsMul (a b : JSNum) : JSNum :=
  match a, b with
  | some x, some y => some (jqMul x y)
  | _, _ => none

/-- JS division; division by zero yields a non-finite value (JS: ±Infinity
or NaN), collapsed into `none`.  The sign is pushed into the numerator so
the denominator stays positive. -/
def jsDiv (a b : JSNum) : JSNum :=
  match a, b with
  | some x, some y =>
      if y.1 = 0 then none
      else if y.1 < 0 then some (-(x.1 * y.2), -(x.2 * y.1))
      else some (x.1 * y.2, x.2 * y.1)
  | _, _ => none

/-- Floor of a `JQ` (denominator positive), as used by `Math.floor`-style
operations; `Int.fdiv` is floor division. -/
def jqFloor (a : JQ) : Int := Int.fdiv a.1 a.2

/-- Ceiling of a `JQ` (denominator positive). -/
def jqCeil (a : JQ) : Int := Int.fdiv (a.1 + a.2 - 1) a.2

/-- Fuel-driven floor of the base-10 logarithm of a natural number
(`log10f fuel n = ⌊log₁₀ n⌋` for `1 ≤ n < 10^fuel`). -/
def log10f : Nat → Nat → Nat
  | 0, _ => 0
  | f + 1, n => if n < 10 then 0 else 1 + log10f f (n / 10)

/-- Fuel-driven ceiling log: smallest `k` with `10^k ≥ n` (for `n ≥ 1`). -/
def clog10f : Nat → Nat → Nat
  | 0, _ => 0
  | f + 1, n => if n ≤ 1 then 0 else 1 + clog10f f ((n + 9) / 10)

/-- Floor of log₁₀ of a positive `JQ` value `n/d`: for `n ≥ d` count the
digits of `⌊n/d⌋`; otherwise `-k` where `k` is the smallest exponent with
`(n/d)·10^k ≥ 1`, i.e. `10^k ≥ ⌈d/n⌉`. -/
def jqLog10 (a : JQ) : Int :=
  let n := a.1.toNat
  let d := a.2.toNat
  if n ≥ d then (log10f 64 (n / d) : Int)
  else -(clog10f 64 ((d + n - 1) / n) : Int)

/-- `utils.round` (src of `round` in the utility module):
`parseFloat(number.toPrecision(10))`, i.e. keep the 10 most significant
decimal digits, rounding the 11th half away from zero (ECMAScript's
`toPrecision` picks the larger candidate on a tie; no reachable value
ties anyway).  Total on `JQ`; 0 maps to 0. -/
def jqRound (a : JQ) : JQ :=
  if a.1 = 0 then (0, 1)
  else
    let absA : JQ := (if a.1 < 0 then -a.1 else a.1, a.2)
    let s : Int := jqLog10 absA - 9
    let scaled : JQ :=
      if s ≤ 0 then (absA.1 * (10 : Int) ^ (-s).toNat, absA.2)
      else (absA.1, absA.2 * (10 : Int) ^ s.toNat)
    let m : Int := Int.fdiv (2 * scaled.1 + scaled.2) (2 * scaled.2)
    let m' : Int := if a.1 < 0 then -m else m
    if s ≥ 0 then (m' * (10 : Int) ^ s.toNat, 1)
    else (m', (10 : Int) ^ (-s).toNat)

def jsRound (a : JSNum) : JSNum := a.map jqRound

/-- `Math.ceil` on a JS number. -/
def jsCeil (a : JSNum) : JSNum := a.map (fun q => (jqCeil q, 1))

/-- Digits of the fractional part `r/d` (with `0 ≤ r < d`), produced by
repeated multiplication by 10; stops when the remainder is 0, so trailing
zeros are stripped exactly as JS `ToString` does.  The fuel (64) exceeds
the number of fractional digits of every value reachable in the pipeline
(all of which are terminating decimals). -/
def fracDigits : Nat → Int → Int → String
  | 0, _, _ => ""
  | f + 1, r, d =>
      if r = 0 then ""
      else
        let r10 := r * 10
        let dig := Int.fdiv r10 d
        String.singleton (Char.ofNat (48 + dig.toNat)) ++ fracDigits f (r10 - dig * d) d

/-- JS `ToString` of a finite double, restricted to the terminating
decimals in the plain (non-exponent) range that the pipeline produces:
optional minus sign, integer digits, and the fractional digits with
trailing zeros stripped ("0" for zero, no trailing dot for integers). -/
def jqToString (a : JQ) : String :=
  if a.1 = 0 then "0"
  else
    let sign := if a.1 < 0 then "-" else ""
    let n : Int := if a.1 < 0 then -a.1 else a.1
    let ip := Int.fdiv n a.2
    let r := n - ip * a.2
    sign ++ Nat.repr ip.toNat ++ (if r = 0 then "" else "." ++ fracDigits 64 r a.2)

/-- JS `ToString` applied to the result of an arithmetic chain; a
non-finite value prints as "NaN" (no claim reaches an Infinity). -/
def jsToString (a : JSNum) : String :=
  match a with
  | none => "NaN"
  | some q => jqToString q

/-- Parse the integer digits of a character list (most significant first),
threading an accumulator.  Returns `none` at the first non-digit. -/
def digitsVal : List Char → Nat → Option Nat
  | [], acc => some acc
  | c :: cs, acc =>
      if c.isDigit then digitsVal cs (acc * 10 + (c.toNat - 48))
      else none

/-- JS `Number(string)` (ToNumber) restricted to the decimal literals that
can reach it in this pipeline (strings captured by `[\d\.]*` or `[-\d\.]*`
character classes, plus plain attribute values): an optional leading minus,
digits with at most one decimal point, the empty string mapping to 0 and
anything else (two dots, a lone dot, a stray character) to NaN.  Exponent
forms cannot occur in the captured groups (the classes exclude `e`). -/
def jsNumber (s : String) : JSNum :=
  let cs := s.toList
  let (neg, cs) := match cs with
    | '-' :: rest => (true, rest)
    | _ => (false, cs)
  if cs = [] then
    if neg then none else some (0, 1)
  else
    let ipart := cs.takeWhile Char.isDigit
    let rest := cs.dropWhile Char.isDigit
    match rest with
    | [] =>
        match digitsVal ipart 0 with
        | some v => some (if neg then -(v : Int) else (v : Int), 1)
        | none => none
    | '.' :: fpart =>
        if ipart = [] ∧ fpart = [] then none
        else if fpart.all Char.isDigit then
          match digitsVal ipart 0, digitsVal fpart 0 with
          | some i, some fv =>
              let d : Int := (10 : Int) ^ fpart.length
              let numer : Int := (i : Int) * d + (fv : Int)
              some (if neg then -numer else numer, d)
          | _, _ => none
        else none
    | _ => none

/-! ## The DOM tree -/

/-- One inline style declaration: property, value, priority (the priority
is "" or "important"; `getPropertyPriority` returns "" when absent). -/
abbrev SD := String × String × String

/-- DOM node in first-child / next-sibling form.  `nil` ends a sibling
chain.  `style = none` means the element has no style attribute. -/
inductive Dom where
  | nil : Dom
  | text (s : String) (sib : Dom) : Dom
  | elem (tag : String) (attrs : List (String × String))
      (style : Option (List SD)) (child : Dom) (sib : Dom) : Dom
deriving DecidableEq, Repr

/-- `getAttribute`: `none` models the `null` the DOM returns for an absent
attribute. -/
def getA : List (String × String) → String → Option String
  | [], _ => none
  | a :: rest, k => if a.1 = k then some a.2 else getA rest k

/-- `setAttribute`: overwrite in place if present, else append. -/
def setA : List (String × String) → String → String → List (String × String)
  | [], k, v => [(k, v)]
  | a :: rest, k, v => if a.1 = k then (k, v) :: rest else a :: setA rest k v

/-- `removeAttribute` (attribute names are unique in a DOM attribute
list, so removing the first occurrence removes the attribute). -/
def removeA : List (String × String) → String → List (String × String)
  | [], _ => []
  | a :: rest, k => if a.1 = k then rest else a :: removeA rest k

/-- `style.getPropertyValue`: "" when the property is absent. -/
def getProp : List SD → String → String
  | [], _ => ""
  | d :: rest, p => if d.1 = p then d.2.1 else getProp rest p

/-- `style.getPropertyPriority`: "" when the property is absent. -/
def getPrio : List SD → String → String
  | [], _ => ""
  | d :: rest, p => if d.1 = p then d.2.2 else getPrio rest p

/-- `style.setProperty`: update the declaration in place if the property
exists, else append it. -/
def setProp : List SD → String → String → String → List SD
  | [], p, v, pr => [(p, v, pr)]
  | d :: rest, p, v, pr =>
      if d.1 = p then (p, v, pr) :: rest else d :: setProp rest p v pr

/-- `style.removeProperty`. -/
def removeProp : List SD → String → List SD
  | [], _ => []
  | d :: rest, p => if d.1 = p then rest else d :: removeProp rest p

/-- Read a style property through the optional style attribute. -/
def getPropO (st : Option (List SD)) (p : String) : String :=
  match st with
  | none => ""
  | some l => getProp l p

/-- Write a style property through the optional style attribute; writing to
an element without a style attribute creates one (as the CSSOM does). -/
def setPropO (st : Option (List SD)) (p v pr : String) : Option (List SD) :=
  match st with
  | none => some [(p, v, pr)]
  | some l => some (setProp l p v pr)

/-- The string JS produces when an attribute value that may be `null` is
coerced (`String(null) = "null"`, and the regexes in the source are applied
to such coerced values). -/
def orNull (o : Option String) : String := o.getD "null"

/-- Root accessor used by `resize` and the filter
(`svgDOM.querySelector('svg').getAttribute(...)`); the model works on the
`<svg>` element itself. -/
def rootAttr (t : Dom) (k : String) : Option String :=
  match t with
  | .elem _ attrs _ _ _ => getA attrs k
  | _ => none

/-- Root attribute update (`svgDOM.querySelector('svg').setAttribute`). -/
def setRootAttr (t : Dom) (k v : String) : Dom :=
  match t with
  | .elem tag attrs st c sib => .elem tag (setA attrs k v) st c sib
  | other => other

/-! ## Dimension model (src/lib/resize.js lines 20-44) -/

/-- A character matched by the `val` group class `[\d\.]` of
`dimRegex = /^(?<val>[\d\.]+)(?<unit>[^\d\.]*)$/`. -/
def isValChar (c : Char) : Bool := c.isDigit || c = '.'

/-- `dimRegex.exec` on a character list.  The two character classes are
complementary, so the regex is deterministic: it matches exactly when the
string consists of a nonempty run of digits/dots followed by a (possibly
empty) run of non-digit/dot characters, and the two groups are those runs. -/
def dimExecL (cs : List Char) : Option (List Char × List Char) :=
  let v := cs.takeWhile isValChar
  let u := cs.dropWhile isValChar
  if v = [] then none
  else if u.any isValChar then none
  else some (v, u)

/-- `dimRegex.exec` on a string, yielding the `val` and `unit` groups. -/
def dimExec (s : String) : Option (String × String) :=
  (dimExecL s.toList).map (fun p => (String.mk p.1, String.mk p.2))

/-- The absolute units: own keys of the `abs2PX` object literal. -/
def absUnits : List String := ["", "px", "cm", "mm", "in", "pt", "pc", "Q"]

/-- Own property names of `Object.prototype` (ECMAScript's standard seven
plus the Annex B accessors).  The source tests unit membership with
`match.groups.unit in abs2PX`, and the JS `in` operator walks the
prototype chain of the plain object literal, so each of these names is
accepted as a "unit" (the corresponding lookup `abs2PX[unit]` then yields
the inherited member, whose numeric coercion is NaN). -/
def objectProtoKeys : List String :=
  ["constructor", "hasOwnProperty", "isPrototypeOf", "propertyIsEnumerable",
   "toLocaleString", "toString", "valueOf", "__proto__", "__defineGetter__",
   "__defineSetter__", "__lookupGetter__", "__lookupSetter__"]

/-- `unit in abs2PX`: own keys plus the inherited `Object.prototype`
property names. -/
def inAbs2PX (u : String) : Bool :=
  absUnits.contains u || objectProtoKeys.contains u

/-- The lookup `abs2PX[unit]`, as a JS number: the pixel factor for the
own keys, as exact rationals (`cm = 37.8`, `mm = 0.1·37.8`,
`pt = 1/72·96`, `pc = 1/6·96`, `Q = 1/40·37.8`); for any other string —
in particular an inherited `Object.prototype` name, whose value is a
function or object — the arithmetic the result feeds coerces it to NaN
(`none`). -/
def abs2PX (u : String) : JSNum :=
  if u = "" || u = "px" then some (1, 1)
  else if u = "cm" then some (378, 10)
  else if u = "mm" then some (378, 100)
  else if u = "in" then some (96, 1)
  else if u = "pt" then some (96, 72)
  else if u = "pc" then some (96, 6)
  else if u = "Q" then some (378, 400)
  else none

/-- The `relUnits` set (a real `Set`, so `has` sees only these entries). -/
def relUnits : List String :=
  ["em", "ex", "ch", "rem", "lh", "rlh", "vw", "vh", "vmin", "vmax", "vb",
   "vi", "svw", "svh", "lvw", "lvh", "dvw", "dvh"]

/-- `dimValid` (resize.js lines 40-44): the dimension regex matches and
the unit group satisfies `unit in abs2PX || relUnits.has(unit)` — with
`in` including the prototype-chain names. -/
def dimValid (s : String) : Bool :=
  match dimExec s with
  | none => false
  | some (_, u) => inAbs2PX u || relUnits.contains u

/-- `dimValid` applied to a possibly-`null` attribute value (JS coerces
`null` to the string "null", which the regex rejects). -/
def dimValidO (o : Option String) : Bool := dimValid (orNull o)

/-- `pandocDimValid` (resize.js lines 87-91): the regex matches and the
unit is one of the units pandoc itself accepts. -/
def pandocDimValid (s : String) : Bool :=
  match dimExec s with
  | none => false
  | some (_, u) => ["px", "cm", "mm", "in", "inch", "%"].contains u

/-- `dim.replace('inch', 'in')` specialized to strings accepted by
`pandocDimValid` (the digits/dots `val` group cannot contain the letters
"inch", so the first and only occurrence is the unit group). -/
def normInch (s : String) : String :=
  match dimExec s with
  | some (v, u) => v ++ (if u = "inch" then "in" else u)
  | none => s

/-! ## Resizer (src/lib/resize.js) -/

/-- `resize(svgDOM, {scaleFactor, width, height})`.  Positional arguments
model the `dimObj` fields; `none` is `undefined`.  A `scaleFactor` supplied
through the filter is a string key-value and is coerced by the arithmetic,
exactly as in the source. -/
def resize (t : Dom) (scaleF width height : Option String) : Dom :=
  let sf : JSNum := match scaleF with
    | none => some (1, 1)
    | some s => jsNumber s
  let wS := rootAttr t "width"
  let hS := rootAttr t "height"
  if dimValidO wS && dimValidO hS then
    match dimExec (orNull wS), dimExec (orNull hS) with
    | some (wv, wu), some (hv, hu) =>
        if relUnits.contains wu || relUnits.contains hu then
          let newW := jsToString (jsRound (jsMul sf (jsNumber wv))) ++ wu
          let newH := jsToString (jsRound (jsMul sf (jsNumber hv))) ++ hu
          setRootAttr (setRootAttr t "width" newW) "height" newH
        else
          let wPX := jsRound (jsMul (jsNumber wv) (abs2PX wu))
          let hPX := jsRound (jsMul (jsNumber hv) (abs2PX hu))
          match width, height with
          | none, none =>
              let newW := jsToString (jsRound (jsDiv (jsMul sf wPX) (some (16, 1)))) ++ "em"
              let newH := jsToString (jsRound (jsDiv (jsMul sf hPX) (some (16, 1)))) ++ "em"
              setRootAttr (setRootAttr t "width" newW) "height" newH
          | none, some hReq =>
              if pandocDimValid hReq then
                let hN := normInch hReq
                match dimExec hN with
                | some (hv2, hu2) =>
                    let aspect := jsDiv wPX hPX
                    let newW := jsToString (jsRound (jsMul (jsNumber hv2) aspect)) ++ hu2
                    setRootAttr (setRootAttr t "width" newW) "height" hN
                | none => t
              else t
          | some wReq, none =>
              if pandocDimValid wReq then
                let wN := normInch wReq
                match dimExec wN with
                | some (wv2, wu2) =>
                    let aspect := jsDiv wPX hPX
                    let newH := jsToString (jsRound (jsDiv (jsNumber wv2) aspect)) ++ wu2
                    setRootAttr (setRootAttr t "width" wN) "height" newH
                | none => t
              else t
          | some wReq, some hReq =>
              if pandocDimValid wReq && pandocDimValid hReq then
                setRootAttr (setRootAttr t "width" (normInch wReq)) "height" (normInch hReq)
              else t
    | _, _ => t
  else t

/-! ## Serialization (innerHTML reads) -/

/-- Inline-style text as the DOM serializes it ("prop: value;" pairs,
"!important" appended when the priority is set). -/
def cssText : List SD → String
  | [] => ""
  | d :: rest =>
      d.1 ++ ": " ++ d.2.1 ++ (if d.2.2 = "" then "" else " !important") ++ ";" ++
      (if rest = [] then "" else " ") ++ cssText rest

def attrsText : List (String × String) → String
  | [] => ""
  | a :: rest => " " ++ a.1 ++ "=" ++ "\"" ++ a.2 ++ "\"" ++ attrsText rest

/-- Markup serialization of a sibling chain, as read back by `innerHTML`.
Text nodes are emitted raw (serialization escaping of `&`, `<`, `>` is not
modelled; no claim input contains such characters). -/
def serialize : Dom → String
  | .nil => ""
  | .text s sib => s ++ serialize sib
  | .elem tag attrs st c sib =>
      "<" ++ tag ++ attrsText attrs ++
      (match st with
       | none => ""
       | some l => " style=" ++ "\"" ++ cssText l ++ "\"") ++
      ">" ++ serialize c ++ "</" ++ tag ++ ">" ++ serialize sib

/-! ## Optimizer: translation folding (src/lib/optimize.js lines 55-100) -/

/-- A character of the coordinate group class `[-\d\.]`. -/
def isTrChar (c : Char) : Bool := c = '-' || c.isDigit || c = '.'

/-- Attempt of
`translateRegex = /\s*translate\((?<x>[-\d\.]*)\s+?(?<y>[-\d\.]*)\)\s*/`
at the current position.  The character classes at each juncture are
disjoint, so the regex is deterministic: optional whitespace, the literal
`translate(`, a greedy run of `[-\d.]`, at least one whitespace (the lazy
`\s+?` must extend to the first non-whitespace because `[-\d.]*` cannot
consume whitespace and `)` is not whitespace), a greedy run of `[-\d.]`,
`)`, then trailing whitespace.  Returns the groups and the rest after the
match. -/
def translateAt (cs : List Char) : Option (String × String × List Char) :=
  let afterWs := cs.dropWhile Char.isWhitespace
  if ['t', 'r', 'a', 'n', 's', 'l', 'a', 't', 'e', '('].isPrefixOf afterWs then
    let body := afterWs.drop 10
    let x := body.takeWhile isTrChar
    let afterX := body.dropWhile isTrChar
    match afterX with
    | c :: _ =>
        if c.isWhitespace then
          let afterSp := afterX.dropWhile Char.isWhitespace
          let y := afterSp.takeWhile isTrChar
          let afterY := afterSp.dropWhile isTrChar
          match afterY with
          | ')' :: tl => some (String.mk x, String.mk y, tl.dropWhile Char.isWhitespace)
          | _ => none
        else none
    | [] => none
  else none

/-- `translateRegex.exec` / `.replace(translateRegex, '')` combined:
leftmost match semantics (try each start position left to right).  Returns
the `x`/`y` groups and the string with the matched span removed. -/
def translateExec : List Char → Option (String × String × List Char)
  | [] => none
  | c :: cs =>
      match translateAt (c :: cs) with
      | some (x, y, rest) => some (x, y, rest)
      | none =>
          match translateExec cs with
          | some (x, y, rest) => some (x, y, c :: rest)
          | none => none

/-- `hasAttribute('x') && hasAttribute('y')`. -/
def hasXY (attrs : List (String × String)) : Bool :=
  (getA attrs "x").isSome && (getA attrs "y").isSome

/-- `allChildrenHaveXY` over the element children of a sibling chain
(text nodes are not in `elt.children`). -/
def allChildrenHaveXY : Dom → Bool
  | .nil => true
  | .text _ sib => allChildrenHaveXY sib
  | .elem _ attrs _ _ sib => hasXY attrs && allChildrenHaveXY sib

/-- `applyTranslation` on an attribute list: read `x`/`y` with `Number`,
add the deltas, round, write the results back as strings. -/
def applyTranslation (dx dy : JSNum) (attrs : List (String × String)) :
    List (String × String) :=
  let x := jsNumber (orNull (getA attrs "x"))
  let y := jsNumber (orNull (getA attrs "y"))
  let newX := jsToString (jsRound (jsAdd x dx))
  let newY := jsToString (jsRound (jsAdd y dy))
  setA (setA attrs "x" newX) "y" newY

/-- Apply a pending parent translation to the attributes of a direct
child (the parent loop `for (const child of elt.children) applyTranslation`
runs before the child itself is visited, so the model threads the parent's
delta into the traversal). -/
def applyDelta (delta : Option (JSNum × JSNum)) (attrs : List (String × String)) :
    List (String × String) :=
  match delta with
  | none => attrs
  | some (dx, dy) => applyTranslation dx dy attrs

/-- `removeTranslations` (optimize.js lines 55-100): document-order
traversal of `querySelectorAll('[transform]')`.  For each element whose
transform contains a `translate(x y)` term and which, together with all of
its element children, carries `x`/`y` attributes, the deltas are folded
into the `x`/`y` attributes of the element and its children and the
matched term is removed from the transform (dropping the attribute when
nothing remains).  Structure never changes, and a parent only rewrites its
direct children's `x`/`y` values, so the static NodeList traversal is
exactly this recursion. -/
def removeTranslationsGo (delta : Option (JSNum × JSNum)) : Dom → Dom
  | .nil => .nil
  | .text s sib => .text s (removeTranslationsGo delta sib)
  | .elem tag attrs st child sib =>
      let attrs0 := applyDelta delta attrs
      match getA attrs0 "transform" with
      | none =>
          .elem tag attrs0 st (removeTranslationsGo none child)
            (removeTranslationsGo delta sib)
      | some tf =>
          match translateExec tf.toList with
          | none =>
              .elem tag attrs0 st (removeTranslationsGo none child)
                (removeTranslationsGo delta sib)
          | some (xg, yg, rest) =>
              if hasXY attrs0 && allChildrenHaveXY child then
                let dx := jsNumber xg
                let dy := jsNumber yg
                let attrs1 := applyTranslation dx dy attrs0
                let newTf := String.mk rest
                let attrs2 :=
                  if newTf.length = 0 then removeA attrs1 "transform"
                  else setA attrs1 "transform" newTf
                .elem tag attrs2 st (removeTranslationsGo (some (dx, dy)) child)
                  (removeTranslationsGo delta sib)
              else
                .elem tag attrs0 st (removeTranslationsGo none child)
                  (removeTranslationsGo delta sib)

def removeTranslations (t : Dom) : Dom := removeTranslationsGo none t

/-! ## Optimizer: tspan run folding (src/lib/optimize.js lines 107-132) -/

/-- Style properties whose value and priority both equal the parent's are
collected and removed (`optimizeTspan`'s index loop plus `removeProperty`
calls; properties are unique, so filtering is the same list). -/
def dropMatchingProps (own : List SD) (parent : Option (List SD)) : List SD :=
  own.filter (fun d =>
    !(d.2.1 = getPropO parent d.1 && d.2.2 = getPrio (parent.getD []) d.1))

/-- `optimizeTspan` (document order; the parent context passed down is the
parent's already-rewritten attributes/style, because the parent is visited
first in the static NodeList).  A `<tspan>` drops `x`/`y` when both equal
the parent's values (String/null comparison), drops style properties that
match the parent's, drops an emptied style attribute, and is replaced by
its serialized contents when no attributes remain; descendants of a
replaced node are serialized, not visited (in the DOM they are visited
detached, with no effect on the tree). -/
def optimizeTspanGo (pAttrs : List (String × String)) (pStyle : Option (List SD)) :
    Dom → Dom
  | .nil => .nil
  | .text s sib => .text s (optimizeTspanGo pAttrs pStyle sib)
  | .elem tag attrs st child sib =>
      if tag = "tspan" then
        let attrs1 :=
          if getA attrs "x" = getA pAttrs "x" && getA attrs "y" = getA pAttrs "y" then
            removeA (removeA attrs "x") "y"
          else attrs
        let st1 : Option (List SD) :=
          match st with
          | none => none
          | some l => some (dropMatchingProps l pStyle)
        let st2 : Option (List SD) :=
          match st1 with
          | some [] => none
          | other => other
        if attrs1 = [] && st2 = none then
          .text (serialize child) (optimizeTspanGo pAttrs pStyle sib)
        else
          .elem tag attrs1 st2 (optimizeTspanGo attrs1 st2 child)
            (optimizeTspanGo pAttrs pStyle sib)
      else
        .elem tag attrs st (optimizeTspanGo attrs st child)
          (optimizeTspanGo pAttrs pStyle sib)

def optimizeTspan (t : Dom) : Dom := optimizeTspanGo [] none t

/-! ## Optimizer main (src/lib/optimize.js lines 140-151) -/

/-- `optimize.main`: run the delegated SVGO minification (an external
collaborator, passed in as a tree transformer standing for the
serialize / svgo / re-parse round trip), then the two folding passes. -/
def optimizeMain (svgoD : Dom → Dom) (t : Dom) : Dom :=
  optimizeTspan (removeTranslations (svgoD t))

/-! ## Compatibility rewrite (src/lib/svg2to11.js) -/

/-- Rewrite of one matched element's style: inline `fill` / `stroke`
values equal to `context-stroke` become `#000` (setProperty with default
empty priority). -/
def fixContextStroke (l : List SD) : List SD :=
  let l1 := if getProp l "fill" = "context-stroke" then setProp l "fill" "#000" "" else l
  if getProp l1 "stroke" = "context-stroke" then setProp l1 "stroke" "#000" "" else l1

/-- `svg2to11`: for every element matching `marker [style]` (a descendant
of a `<marker>` that carries a style attribute), rewrite `context-stroke`
paint values.  Only styles are mutated, so the static NodeList traversal
is this recursion; `inMarker` records whether an ancestor is a marker
(the descendant combinator excludes the marker itself). -/
def svg2to11Go (inMarker : Bool) : Dom → Dom
  | .nil => .nil
  | .text s sib => .text s (svg2to11Go inMarker sib)
  | .elem tag attrs st child sib =>
      let st' : Option (List SD) :=
        match st with
        | none => none
        | some l => some (if inMarker then fixContextStroke l else l)
      .elem tag attrs st' (svg2to11Go (inMarker || tag = "marker") child)
        (svg2to11Go inMarker sib)

def svg2to11 (t : Dom) : Dom := svg2to11Go false t

/-! ## Text utilities (utility module bundled with text2foreignObject.js) -/

/-- Font-size promotion loop of `flattenTextChildren`: for each element
child in order, a nonempty `font-size` is written into the parent's style
(unconditionally — the source does not check whether the parent already
has one). -/
def promoteFontSizes (st : Option (List SD)) : Dom → Option (List SD)
  | .nil => st
  | .text _ sib => promoteFontSizes st sib
  | .elem _ _ cst _ sib =>
      let fs := getPropO cst "font-size"
      promoteFontSizes (if fs = "" then st else setPropO st "font-size" fs "") sib

/-- Replacement loop of `flattenTextChildren`: each element child is
replaced by a text node holding its serialized contents
(`child.replaceWith(child.innerHTML)`); text children stay. -/
def flattenKids : Dom → Dom
  | .nil => .nil
  | .text s sib => .text s (flattenKids sib)
  | .elem _ _ _ c sib => .text (serialize c) (flattenKids sib)

/-- `utils.flattenTextChildren`. -/
def flattenTextChildren : Dom → Dom
  | .elem tag attrs st child sib =>
      .elem tag attrs (promoteFontSizes st child) (flattenKids child) sib
  | other => other

/-- Test of `equationRegex = /^\$[^\$]+\$/` (md2html's fast-path guard):
anchored at the start only — a leading `$`, at least one non-`$`, then a
`$`; anything may follow. -/
def equationRegexTest (s : String) : Bool :=
  match s.toList with
  | '$' :: c :: rest => c ≠ '$' && (c :: rest).contains '$'
  | _ => false

/-- Find the closing `$` for the lazy `(.+?)` group of
`/\$(.+?)\$/g` (`utils.convertMathJaxDelimiters`): at least one character
consumed (the first may itself be `$`, since `.` matches it), none a
newline; the first admissible `$` thereafter closes. -/
def closeMath : List Char → List Char → Option (List Char × List Char)
  | [], _ => none
  | c :: cs, acc =>
      if c = '\n' then none
      else if c = '$' ∧ acc ≠ [] then some (acc.reverse, cs)
      else closeMath cs (c :: acc)

/-- Fueled scan for the global replacement of `$…$` pairs with `\(…\)`;
each step consumes at least one character, so fuel = input length is
always sufficient. -/
def convertMathJaxGo : Nat → List Char → List Char
  | 0, _ => []
  | _, [] => []
  | f + 1, c :: cs =>
      if c = '$' then
        match closeMath cs [] with
        | some (grp, rest) =>
            '\\' :: '(' :: (grp ++ '\\' :: ')' :: convertMathJaxGo f rest)
        | none => c :: convertMathJaxGo f cs
      else c :: convertMathJaxGo f cs

/-- `utils.convertMathJaxDelimiters`. -/
def convertMathJaxDelimiters (s : String) : String :=
  String.mk (convertMathJaxGo s.toList.length s.toList)

/-- `utils.md2html`, with the external markdown converter (pandoc invoked
with `--mathjax`, its output re-parsed by the innerHTML assignment)
abstracted as a delegate producing the parsed rich content directly.  When
the fast-path regex fires, the produced markup is
`<p><span class="math inline">…</span></p>` with the converted
delimiters. -/
def md2html (pandocD : String → Dom) (markdown : String) : Dom :=
  if equationRegexTest markdown then
    .elem "p" [] none
      (.elem "span" [("class", "math inline")] none
        (.text (convertMathJaxDelimiters markdown) .nil) .nil) .nil
  else pandocD markdown

/-- Leftmost match of `/(?<size>[\d\.]+)px/` (the font-size probe in
text2foreignObject.js lines 121-123), returning the `size` group.  The
class `[\d.]` cannot contain `p`, so greedy matching with backtracking
reduces to: a maximal nonempty digits/dots run immediately followed by
`px`.  The scan threads the current run (reversed) through the
traversal. -/
def pxScan : List Char → List Char → Option (List Char)
  | [], _ => none
  | c :: cs, run =>
      if isValChar c then pxScan cs (c :: run)
      else if c = 'p' then
        match run, cs with
        | _ :: _, 'x' :: _ => some run.reverse
        | _, _ => pxScan cs []
      else pxScan cs []

def pxExec (s : String) : Option String := (pxScan s.toList []).map String.mk

/-! ## Text converter (src/lib/text2foreignObject.js) -/

/-- Is there an element in the sibling chain (`foreignObject.children` is
the element children only)? -/
def hasElemChild : Dom → Bool
  | .nil => false
  | .text _ sib => hasElemChild sib
  | .elem _ _ _ _ _ => true

/-- `foreignObject.children[0].prepend(span)` followed by the `margin-top`
write on that same first element child: `none` models the `TypeError`
thrown when there is no element child (`children[0]` is `undefined`). -/
def prependSpanMargin (h20 : String) : Dom → Option Dom
  | .nil => none
  | .text s sib => (prependSpanMargin h20 sib).map (Dom.text s)
  | .elem tg a st c sib =>
      some (.elem tg a (setPropO st "margin-top" ("-" ++ h20) "")
        (.elem "span" []
          (some [("height", h20, ""), ("display", "inline-block", "")]) .nil c) sib)

/-- The anchor-compensation loop body applied to every element child:
`child.style.setProperty('transform', 'translateX(…%)')`. -/
def anchorShift (txs : String) : Dom → Dom
  | .nil => .nil
  | .text s sib => .text s (anchorShift txs sib)
  | .elem tg a st c sib => .elem tg a (setPropO st "transform" txs "") c (anchorShift txs sib)

/-- Conversion of a single `<text>` element (the body of the `forEach` in
`text2foreignObject`), given its attributes, style and children.
`Except.error ()` models an uncaught exception; `.ok none` models removal
of an empty element; `.ok (some fo)` is the replacement `<foreignObject>`
(with an empty sibling slot). -/
def convertTextElt (pandocD : String → Dom) (attrs : List (String × String))
    (st : Option (List SD)) (child : Dom) : Except Unit (Option Dom) :=
  let st' := promoteFontSizes st child
  let kids := flattenKids child
  let markdown := serialize kids
  if markdown = "" then .ok none
  else
    let html := md2html pandocD markdown
    let textWidth := getPropO st' "inline-size"
    let foW := if textWidth = "" then "1000" else textWidth
    let foAttrs0 :=
      [("x", orNull (getA attrs "x")), ("y", orNull (getA attrs "y")),
       ("width", foW), ("height", "1"), ("overflow", "visible")]
    let foAttrs :=
      match getA attrs "transform" with
      | some tv => if tv = "" then foAttrs0 else foAttrs0 ++ [("transform", tv)]
      | none => foAttrs0
    let fs0 := getPropO st' "font-size"
    let fs := if fs0 = "" then "16px" else fs0
    let foStyle0 := setPropO none "font-size" fs ""
    let ff := getPropO st' "font-family"
    let foStyle1 := if ff = "" then foStyle0 else setPropO foStyle0 "font-family" ff ""
    let color := getPropO st' "fill"
    let foStyle2 := if color = "" then foStyle1 else setPropO foStyle1 "color" color ""
    let opac := getPropO st' "opacity"
    let foStyle3 := if opac = "" then foStyle2 else setPropO foStyle2 "opacity" opac ""
    match pxExec fs with
    | none => .error ()
    | some size =>
        let h20 := jsToString (jsCeil (jsMul (some (20, 1)) (jsNumber size))) ++ "px"
        match prependSpanMargin h20 html with
        | none => .error ()
        | some html1 =>
            let ta := getPropO st' "text-anchor"
            let tx : Int := if ta = "middle" then -50 else if ta = "end" then -100 else 0
            let align := if ta = "middle" then "center" else if ta = "end" then "end" else "start"
            let html2 :=
              if tx = 0 then html1
              else anchorShift ("translateX(" ++ Int.repr tx ++ "%)") html1
            let foStyle4 :=
              if tx = 0 || !hasElemChild html1 then foStyle3
              else setPropO foStyle3 "text-align" align ""
            .ok (some (.elem "foreignObject" foAttrs foStyle4 html2 .nil))

/-- Put a sibling chain after a (replacement) node. -/
def setSib : Dom → Dom → Dom
  | .nil, sib => sib
  | .text s _, sib => .text s sib
  | .elem t a st c _, sib => .elem t a st c sib

/-- `text2foreignObject`: document-order traversal of
`querySelectorAll('text')` with in-place replacement.  A thrown exception
aborts the whole pass (the `forEach` does not catch).  A `<text>` nested
inside another `<text>` cannot survive to be visited attached (the outer
flatten serializes it), matching the non-recursive treatment of converted
elements. -/
def text2foGo (pandocD : String → Dom) : Dom → Except Unit Dom
  | .nil => .ok .nil
  | .text s sib => (text2foGo pandocD sib).map (Dom.text s)
  | .elem tag attrs st child sib =>
      if tag = "text" then
        match convertTextElt pandocD attrs st child with
        | .error e => .error e
        | .ok none => text2foGo pandocD sib
        | .ok (some fo) => (text2foGo pandocD sib).map (setSib fo)
      else
        match text2foGo pandocD child with
        | .error e => .error e
        | .ok c' => (text2foGo pandocD sib).map (Dom.elem tag attrs st c')

def text2foreignObject (pandocD : String → Dom) (t : Dom) : Except Unit Dom :=
  text2foGo pandocD t

/-! ## Filter dispatch and stage order (src/lib/filter.js lines 63-100) -/

/-- Last value for a key, as `Object.fromEntries` (last entry wins) and
the `scale-factor` capture loop (each occurrence overwrites) produce. -/
def lastVal (kvs : List (String × String)) (k : String) : Option String :=
  ((kvs.filter (fun kv => kv.1 == k)).getLast?).map (fun kv => kv.2)

/-- The per-image dispatch of `filter` (lines 63-89): `width`/`height`
key-values are split off and, when present, passed to `resize` (the
`keep-size` class is not consulted on that path); otherwise, without
`keep-size`, any `scale-factor` key-value is removed and passed to
`resize`; with `keep-size`, the class is stripped and the Resizer is
skipped.  Returns the updated classes, key-values and tree. -/
def filterDispatch (classes : List String) (keyvals : List (String × String))
    (t : Dom) : List String × List (String × String) × Dom :=
  let dimKeyvals := keyvals.filter (fun kv => kv.1 == "width" || kv.1 == "height")
  let keyvals1 := keyvals.filter (fun kv => !(kv.1 == "width" || kv.1 == "height"))
  if dimKeyvals.length ≠ 0 then
    (classes, keyvals1, resize t none (lastVal dimKeyvals "width") (lastVal dimKeyvals "height"))
  else if !(classes.contains "keep-size") then
    let sf := lastVal keyvals1 "scale-factor"
    let keyvals2 := keyvals1.filter (fun kv => !(kv.1 == "scale-factor"))
    (classes, keyvals2, resize t sf none none)
  else
    (classes.erase "keep-size", keyvals1, t)

/-- The HTML-path stages of `filter` (lines 91-100), in source order:
`optimize` (SVGO delegate plus the folding passes), then
`text2foreignObject`, then `svg2to11`. -/
def htmlStages (svgoD : Dom → Dom) (pandocD : String → Dom) (t : Dom) :
    Except Unit Dom :=
  (text2foreignObject pandocD (optimizeMain svgoD t)).map svg2to11

/-- The stage order asserted by the spec sentence behind claim C1
(compatibility rewrite as the Optimizer's final sub-stage, applied before
the Text Converter consumes the tree); defined from the spec's words, for
comparison with `htmlStages`. -/
def specOrderStages (svgoD : Dom → Dom) (pandocD : String → Dom) (t : Dom) :
    Except Unit Dom :=
  text2foreignObject pandocD (svg2to11 (optimizeMain svgoD t))

/-- Dispatch followed by the HTML-path stages (filter.js lines 63-100). -/
def filterProcess (svgoD : Dom → Dom) (pandocD : String → Dom)
    (classes : List String) (keyvals : List (String × String)) (t : Dom) :
    Except Unit (List String × List (String × String) × Dom) :=
  match filterDispatch classes keyvals t with
  | (c1, k1, t1) => (htmlStages svgoD pandocD t1).map (fun t2 => (c1, k1, t2))

/-! ## Definitions written from the spec's words, for comparison -/

/-- The dimension-validity regex as the spec states it
(`^(\d+(\.\d+)?)([a-zA-Z%]*)$`): digits, an optional dot followed by
digits, then letters or `%`.  The classes are disjoint, so the regex is
the displayed decomposition. -/
def specDimRegexMatch (s : String) : Bool :=
  let cs := s.toList
  let ip := cs.takeWhile Char.isDigit
  let rest := cs.dropWhile Char.isDigit
  if ip = [] then false
  else
    let rest2 :=
      match rest with
      | '.' :: tl =>
          if tl.takeWhile Char.isDigit = [] then none
          else some (tl.dropWhile Char.isDigit)
      | other => some other
    match rest2 with
    | none => false
    | some u => u.all (fun c => c.isAlpha || c = '%')

/-- Modelled from the spec (claim C3): the content is exactly one equation
delimited by `$…$` with no interior `$` — a leading `$`, a trailing `$`,
and a nonempty interior free of `$`. -/
def isExactEquation (s : String) : Bool :=
  match s.toList with
  | '$' :: c :: rest =>
      let l := c :: rest
      l.getLast? = some '$' && decide (l.dropLast ≠ []) && !(l.dropLast.contains '$')
  | _ => false

/-- The last nonempty `font-size` among the element children of a chain
(the value the unconditional promotion loop leaves behind). -/
def lastChildFontSize : Dom → Option String
  | .nil => none
  | .text _ sib => lastChildFontSize sib
  | .elem _ _ cst _ sib =>
      match lastChildFontSize sib with
      | some v => some v
      | none =>
          let fs := getPropO cst "font-size"
          if fs = "" then none else some fs

/-- Style accessor for an element node. -/
def eltStyle : Dom → Option (List SD)
  | .elem _ _ st _ _ => st
  | _ => none

/-- Stand-in for the pandoc delegate in concrete evaluations (never
reached on fast-path inputs; shaped like pandoc's single-paragraph
output). -/
def pandocStub (s : String) : Dom := .elem "p" [] none (.text s .nil) .nil

/-! ## Concrete trees used by witnesses and counterexamples -/

/-- An A4-sized root, `width="210mm" height="297mm"`. -/
def t210 : Dom := .elem "svg" [("width", "210mm"), ("height", "297mm")] none .nil .nil

/-- Root with a relative width and an absolute height
(`width="50%" height="50mm"`). -/
def t50pct : Dom := .elem "svg" [("width", "50%"), ("height", "50mm")] none .nil .nil

/-- Root with a malformed width. -/
def tAbc : Dom := .elem "svg" [("width", "abc"), ("height", "5cm")] none .nil .nil

/-- 10cm × 20cm root (resizable). -/
def t9 : Dom := .elem "svg" [("width", "10cm"), ("height", "20cm")] none .nil .nil

/-- The translation-folding example of claim C8:
`<text x="1" y="2" transform="translate(-1 -2) scale(1 0.5)">` with one
`<tspan x="1" y="2">` child. -/
def t8 : Dom :=
  .elem "svg" [] none
    (.elem "text"
      [("x", "1"), ("y", "2"), ("transform", "translate(-1 -2) scale(1 0.5)")] none
      (.elem "tspan" [("x", "1"), ("y", "2")] none (.text "A" .nil) .nil) .nil) .nil

/-- A marker whose `<text>` carries `fill: context-stroke` — an input on
which the position of the compatibility rewrite relative to the Text
Converter is observable. -/
def c1Tree : Dom :=
  .elem "svg" [] none
    (.elem "marker" [] none
      (.elem "text" [("x", "0"), ("y", "0")] (some [("fill", "context-stroke", "")])
        (.text "$x$" .nil) .nil) .nil) .nil

/-- A `<text>` whose own `font-size` differs from its `<tspan>` child's. -/
def t5 : Dom :=
  .elem "text" [] (some [("font-size", "10px", "")])
    (.elem "tspan" [] (some [("font-size", "12px", "")]) (.text "a" .nil) .nil) .nil

/-! ## Claim C2 -/

/-- C2, counterexample: for the A4 root with no target and scale factor 1,
`resize` writes the height attribute "70.16625em" (297·3.78 = 1122.66 px,
divided by 16 and rounded), not the "70.175em" the claim asserts. -/
theorem resize_a4_height_counterexample :
    rootAttr (resize t210 none none none) "height" = some "70.16625em" ∧
    ("70.16625em" : String) ≠ "70.175em" := by
  constructor
  · rfl
  · decide

/-- C2, amended: for the A4 root with no target width/height and scale
factor 1 (the default), `resize` sets the width attribute to exactly
"49.6125em" and the height attribute to exactly "70.16625em". -/
theorem resize_a4_exact :
    rootAttr (resize t210 none none none) "width" = some "49.6125em" ∧
    rootAttr (resize t210 none none none) "height" = some "70.16625em" := by
  exact ⟨rfl, rfl⟩

/-! ## Claim C8 -/

/-- C8: translation folding on
`<text x="1" y="2" transform="translate(-1 -2) scale(1 0.5)">` with one
`<tspan x="1" y="2">` child rewrites the parent's transform to exactly
"scale(1 0.5)" and sets the parent's and the child's `x`/`y` attributes to
the string "0". -/
theorem removeTranslations_example :
    removeTranslations t8 =
      .elem "svg" [] none
        (.elem "text" [("x", "0"), ("y", "0"), ("transform", "scale(1 0.5)")] none
          (.elem "tspan" [("x", "0"), ("y", "0")] none (.text "A" .nil) .nil) .nil) .nil := by
  rfl

/-! ## Claim C3 -/

/-- C3: the fast-path guard `equationRegex = /^\$[^\$]+\$/` is not
anchored at the end of the string, contradicting the code's own comment
("begins and ends with `$`, and contains no `$` inbetween") and the spec:
the content "$x$y" is not exactly one `$…$` equation, yet `md2html` takes
the direct-substitution fast path on it, wrapping the trailing text inside
the math span without invoking the markdown converter. -/
theorem md2html_fast_path_not_anchored :
    equationRegexTest "$x$y" = true ∧
    isExactEquation "$x$y" = false ∧
    md2html pandocStub "$x$y" =
      .elem "p" [] none
        (.elem "span" [("class", "math inline")] none
          (.text "\\(x\\)y" .nil) .nil) .nil := by
  refine ⟨by decide, by decide, rfl⟩

/-! ## Claim C4 -/

/-- C4, counterexample: the claim's regex `^(\d+(\.\d+)?)([a-zA-Z%]*)$`
requires a leading digit, but the code's `^(?<val>[\d\.]+)(?<unit>[^\d\.]*)$`
accepts ".5" (val = ".5", empty unit = px), so the asserted equivalence
fails at ".5". -/
theorem dimValid_spec_regex_counterexample :
    dimValid ".5" = true ∧ specDimRegexMatch ".5" = false := by
  decide

/-! ## Claim C6 -/

/-- C6, counterexample: with a malformed source width the function returns
before the dual-target branch, so even though both requested targets
validate, nothing is written through — contradicting the claim's "when
both validate, both attributes are written through". -/
theorem resize_dual_target_counterexample :
    pandocDimValid "5cm" = true ∧ pandocDimValid "6cm" = true ∧
    rootAttr (resize tAbc none (some "5cm") (some "6cm")) "width" ≠ some "5cm" := by
  refine ⟨by decide, by decide, by decide⟩

/-! ## Claim C9 -/

/-- C9, counterexample: an image carrying the `keep-size` class together
with a `width` key-value is resized anyway (the dimension branch never
consults the class) and the class is not stripped. -/
theorem keep_size_counterexample :
    (filterDispatch ["keep-size"] [("width", "5cm")] t9).1.contains "keep-size" = true ∧
    rootAttr (filterDispatch ["keep-size"] [("width", "5cm")] t9).2.2 "width" = some "5cm" ∧
    rootAttr t9 "width" = some "10cm" := by
  refine ⟨by decide, rfl, rfl⟩

/-! ## Claim C5 -/

/-- C5, counterexample: flattening a `<text>` with its own
`font-size: 10px` and a `<tspan>` child with `font-size: 12px` overwrites
the parent's value (the promotion is unconditional), leaving "12px" where
the claim says the original "10px" is retained. -/
theorem flatten_font_size_counterexample :
    getPropO (eltStyle (flattenTextChildren t5)) "font-size" = "12px" ∧
    ("12px" : String) ≠ "10px" := by
  refine ⟨rfl, by decide⟩

/-! ## Claim C1 -/

/-- C1, counterexample: the two stage orders are observably different, so
the compatibility rewrite has not "already been applied before the Text
Converter consumes the tree".  On `c1Tree` the code order
(`optimize; text2foreignObject; svg2to11`) leaves the replacement block
with `color: context-stroke` (the converter copies the still-unrewritten
`fill`, and `svg2to11` afterwards only touches `fill`/`stroke`
properties), while the spec order would produce `color: #000`. -/
theorem compat_rewrite_order_counterexample :
    Except.toOption (htmlStages id pandocStub c1Tree) ≠
    Except.toOption (specOrderStages id pandocStub c1Tree) := by
  decide

/-- C1, amended: the passes run in the fixed order Resizer, Optimizer
(minification delegate, then translation folding, then run folding), Text
Converter — and then the compatibility rewrite `svg2to11` as a separate
final pass, applied only after the Text Converter has consumed the tree;
the spec-asserted placement before the Text Converter is not equivalent. -/
theorem compat_rewrite_after_text_converter :
    (∀ (svgoD : Dom → Dom) (pandocD : String → Dom) (t : Dom),
      htmlStages svgoD pandocD t =
        (text2foreignObject pandocD
          (optimizeTspan (removeTranslations (svgoD t)))).map svg2to11) ∧
    Except.toOption (specOrderStages id pandocStub c1Tree) ≠
    Except.toOption (htmlStages id pandocStub c1Tree) := by
  refine ⟨fun svgoD pandocD t => rfl, by decide⟩

/-! ## Helper lemmas -/

lemma getProp_setProp (l : List SD) (p v pr : String) :
    getProp (setProp l p v pr) p = v := by
  induction l with
  | nil => simp [setProp, getProp]
  | cons d rest ih =>
      by_cases h : d.1 = p
      · simp [setProp, getProp, h]
      · simp [setProp, getProp, h, ih]

lemma getPropO_setPropO (st : Option (List SD)) (p v pr : String) :
    getPropO (setPropO st p v pr) p = v := by
  cases st with
  | none => simp [setPropO, getPropO, getProp]
  | some l => simp [setPropO, getPropO, getProp_setProp]

/-! ## Claim C7 -/

/-- Root whose width unit is an `Object.prototype` property name
(unrecognized by the spec's unit lists, yet accepted by the code's
prototype-walking `in` test). -/
def tProto : Dom := .elem "svg" [("width", "5toString"), ("height", "5cm")] none .nil .nil

/-- C7, counterexample: `width="5toString"` carries a unit that is not a
recognized absolute or relative unit, so the claim demands a byte-identical
no-op — but the unit passes the code's `unit in abs2PX` test through the
prototype chain, `abs2PX['toString']` coerces to NaN, and `resize` writes
`width="NaNem"` and `height="11.8125em"`, mutating the tree. -/
theorem resize_proto_unit_counterexample :
    (absUnits.contains "toString" || relUnits.contains "toString") = false ∧
    dimValid "5toString" = true ∧
    rootAttr (resize tProto none none none) "width" = some "NaNem" ∧
    rootAttr (resize tProto none none none) "height" = some "11.8125em" ∧
    resize tProto none none none ≠ tProto := by
  refine ⟨by decide, by decide, rfl, rfl, by decide⟩

/-- C7, amended: when the root's width or height attribute fails the
code's dimension validation — malformed per the regex, missing (the `null`
coerces to the unmatchable string "null"), or carrying a unit that is
neither a recognized unit nor an `Object.prototype` property name, such as
"50%" — `resize` returns the tree unchanged, whatever was requested; the
model is total, so no error is raised, and an identical tree serializes
identically.  (A unit that is an `Object.prototype` name, e.g.
"5toString", instead passes the prototype-chain `in` test and the root is
mutated with NaN-bearing dimensions.) -/
theorem resize_invalid_noop (t : Dom) (sf w h : Option String)
    (hinv : dimValidO (rootAttr t "width") = false ∨
            dimValidO (rootAttr t "height") = false) :
    resize t sf w h = t := by
  unfold resize
  rcases hinv with h1 | h1 <;> simp [h1]

/-- C7, witness: the spec's own example `width="50%" height="50mm"` (a
`%` unit fails the unit test) is left byte-identical. -/
theorem resize_invalid_noop_witness :
    resize t50pct none none none = t50pct :=
  resize_invalid_noop t50pct none none none (Or.inl (by decide))

/-! ## Claim C6 -/

/-- C6, amended: provided the root's width and height attributes are valid
dimensions in non-relative (absolute) units — otherwise the earlier steps
of `resize` apply instead (invalid source: silent no-op; relative source:
scale-factor only, targets ignored) — a call with both a target width and
a target height is atomic: if either target fails the pandoc unit
validation, neither attribute is mutated; if both validate, both are
written through (after `inch`→`in` normalization), with no aspect-ratio
adjustment. -/
theorem resize_dual_target_atomic (t : Dom) (sf : Option String)
    (ws hs wv wu hv hu wReq hReq : String)
    (hwa : rootAttr t "width" = some ws) (hha : rootAttr t "height" = some hs)
    (hwx : dimExec ws = some (wv, wu)) (hhx : dimExec hs = some (hv, hu))
    (hwrec : (absUnits.contains wu || relUnits.contains wu) = true)
    (hhrec : (absUnits.contains hu || relUnits.contains hu) = true)
    (hwrel : relUnits.contains wu = false) (hhrel : relUnits.contains hu = false) :
    ((pandocDimValid wReq && pandocDimValid hReq) = false →
       resize t sf (some wReq) (some hReq) = t) ∧
    ((pandocDimValid wReq && pandocDimValid hReq) = true →
       resize t sf (some wReq) (some hReq) =
         setRootAttr (setRootAttr t "width" (normInch wReq)) "height" (normInch hReq)) := by
  have hw1 : wu ∈ absUnits ∨ wu ∈ relUnits := by simpa using hwrec
  have hh1 : hu ∈ absUnits ∨ hu ∈ relUnits := by simpa using hhrec
  have hw2 : wu ∉ relUnits := by simpa using hwrel
  have hh2 : hu ∉ relUnits := by simpa using hhrel
  have hw3 : wu ∈ absUnits := hw1.resolve_right hw2
  have hh3 : hu ∈ absUnits := hh1.resolve_right hh2
  have hw4 : inAbs2PX wu = true := by simp [inAbs2PX, hw3]
  have hh4 : inAbs2PX hu = true := by simp [inAbs2PX, hh3]
  constructor
  · intro hp
    simp [resize, hwa, hha, dimValidO, orNull, dimValid, hwx, hhx, hw1, hh1,
      hw2, hh2, hw3, hh3, hw4, hh4, hp]
  · intro hp
    simp [resize, hwa, hha, dimValidO, orNull, dimValid, hwx, hhx, hw1, hh1,
      hw2, hh2, hw3, hh3, hw4, hh4, hp]

/-- C6, witness: on the 10cm × 20cm root, two valid targets are written
through verbatim and an invalid target aborts with no mutation. -/
theorem resize_dual_target_atomic_witness :
    resize t9 none (some "5cm") (some "30mm") =
      setRootAttr (setRootAttr t9 "width" (normInch "5cm")) "height" (normInch "30mm") ∧
    resize t9 none (some "banana") (some "5cm") = t9 := by
  constructor
  · exact (resize_dual_target_atomic t9 none "10cm" "20cm" "10" "cm" "20" "cm"
      "5cm" "30mm" (by decide) (by decide) (by decide) (by decide) (by decide)
      (by decide) (by decide) (by decide)).2 (by decide)
  · exact (resize_dual_target_atomic t9 none "10cm" "20cm" "10" "cm" "20" "cm"
      "banana" "5cm" (by decide) (by decide) (by decide) (by decide) (by decide)
      (by decide) (by decide) (by decide)).1 (by decide)

/-! ## Claim C9 -/

/-- C9, amended: the `keep-size` class skips the Resizer and is stripped
from the emitted classes only when no `width`/`height` key-value is
present; a `width` or `height` key-value takes precedence (the tree is
resized with it and `keep-size` stays in the class list).  In the
no-dimension case the tree passes through untouched, the class list loses
its first `keep-size`, and the key-values (including any `scale-factor`)
are emitted unchanged. -/
theorem keep_size_strip_no_dim (classes : List String)
    (keyvals : List (String × String)) (t : Dom)
    (hks : classes.contains "keep-size" = true)
    (hnd : ∀ kv ∈ keyvals, kv.1 ≠ "width" ∧ kv.1 ≠ "height") :
    filterDispatch classes keyvals t = (classes.erase "keep-size", keyvals, t) := by
  have hdim : keyvals.filter (fun kv => kv.1 == "width" || kv.1 == "height") = [] := by
    rw [List.filter_eq_nil_iff]
    intro kv hkv
    have h := hnd kv hkv
    simp [h.1, h.2]
  have hid : keyvals.filter (fun kv => !(kv.1 == "width" || kv.1 == "height")) = keyvals := by
    rw [List.filter_eq_self]
    intro kv hkv
    have h := hnd kv hkv
    simp [h.1, h.2]
  have hmem : "keep-size" ∈ classes := by simpa using hks
  simp only [filterDispatch]
  rw [hdim, hid]
  simp [hmem]

/-- C9, witness: with only a `scale-factor` key-value, `keep-size` strips
and the Resizer is skipped. -/
theorem keep_size_strip_no_dim_witness :
    filterDispatch ["keep-size"] [("scale-factor", "2")] t210 =
      ([], [("scale-factor", "2")], t210) :=
  keep_size_strip_no_dim ["keep-size"] [("scale-factor", "2")] t210 (by decide)
    (by decide)

/-! ## Claim C5 -/

lemma promoteFontSizes_lastChild (child : Dom) : ∀ st : Option (List SD),
    getPropO (promoteFontSizes st child) "font-size" =
      (lastChildFontSize child).getD (getPropO st "font-size") := by
  induction child with
  | nil => intro st; simp [promoteFontSizes, lastChildFontSize]
  | text s sib ih => intro st; simp [promoteFontSizes, lastChildFontSize, ih]
  | elem tag attrs cst c sib ihc ihs =>
      intro st
      simp only [promoteFontSizes, lastChildFontSize]
      rw [ihs]
      cases hlast : lastChildFontSize sib with
      | some v => simp [hlast]
      | none =>
          by_cases hfs : getPropO cst "font-size" = ""
          · simp [hlast, hfs]
          · simp [hlast, hfs, getPropO_setPropO]

/-- C5, amended: during flattening a child run's `font-size` is promoted
to the parent's style unconditionally, overwriting any value the parent
already has; after flattening, the parent's `font-size` is the last
nonempty `font-size` among its element children, or its own original value
if no child specifies one. -/
theorem flatten_font_size_last_child_wins (tag : String)
    (attrs : List (String × String)) (st : Option (List SD)) (child sib : Dom) :
    getPropO (eltStyle (flattenTextChildren (.elem tag attrs st child sib))) "font-size" =
      (lastChildFontSize child).getD (getPropO st "font-size") := by
  simp [flattenTextChildren, eltStyle, promoteFontSizes_lastChild]

/-! ## Claim C4 -/

lemma takeWhile_dropWhile_append (p : Char → Bool) (v u : List Char)
    (hall : v.all p = true) (hu : u.head?.all (fun c => !p c) = true) :
    (v ++ u).takeWhile p = v ∧ (v ++ u).dropWhile p = u := by
  induction v with
  | nil =>
      simp only [List.nil_append]
      cases u with
      | nil => simp
      | cons c cs =>
          simp only [List.head?_cons, Option.all_some, Bool.not_eq_true'] at hu
          simp [List.takeWhile_cons, List.dropWhile_cons, hu]
  | cons a v ih =>
      simp only [List.all_cons, Bool.and_eq_true] at hall
      have h2 := ih hall.2
      constructor
      · simp [List.cons_append, List.takeWhile_cons, hall.1, h2.1]
      · simp [List.cons_append, List.dropWhile_cons, hall.1, h2.2]

lemma recognized_unit_facts (u : String)
    (h : (inAbs2PX u || relUnits.contains u) = true) :
    u.toList.any isValChar = false ∧
    u.toList.head?.all (fun c => !isValChar c) = true := by
  have hmem : (u ∈ absUnits ∨ u ∈ objectProtoKeys) ∨ u ∈ relUnits := by
    simpa [inAbs2PX, or_assoc] using h
  rcases hmem with (hm | hm) | hm
  · fin_cases hm <;> decide
  · fin_cases hm <;> decide
  · fin_cases hm <;> decide

lemma string_mk_data (u : String) : String.mk u.data = u := rfl

/-- C4, amended: the code accepts a dimension string iff it decomposes as
a nonempty run of digits and dots (the `val` group of
`^(?<val>[\d\.]+)(?<unit>[^\d\.]*)$` — not the spec's stricter
`\d+(\.\d+)?` number shape) followed by a suffix satisfying the code's
unit test `unit in abs2PX || relUnits.has(unit)` — the recognized absolute
and relative units plus, through the prototype-walking `in` operator, the
`Object.prototype` property names; in particular ".5" and "1.2.3" are
accepted with the empty (px) unit, and "5toString" is accepted with the
inherited "toString" as its unit. -/
theorem dimValid_characterization (s : String) :
    dimValid s = true ↔
      ∃ (v : List Char) (u : String), s.toList = v ++ u.toList ∧ v ≠ [] ∧
        v.all isValChar = true ∧
        (inAbs2PX u || relUnits.contains u) = true := by
  constructor
  · intro h
    unfold dimValid at h
    cases hx : dimExec s with
    | none => rw [hx] at h; cases h
    | some vu =>
        obtain ⟨v0, u0⟩ := vu
        rw [hx] at h
        unfold dimExec dimExecL at hx
        by_cases hv : s.toList.takeWhile isValChar = []
        · rw [if_pos hv] at hx
          exact absurd hx (by simp)
        · rw [if_neg hv] at hx
          by_cases ha : (s.toList.dropWhile isValChar).any isValChar = true
          · rw [if_pos ha] at hx
            exact absurd hx (by simp)
          · rw [if_neg ha, Option.map_some'] at hx
            have hpair := Option.some.inj hx
            have h2 : String.mk (s.toList.dropWhile isValChar) = u0 :=
              congrArg Prod.snd hpair
            refine ⟨s.toList.takeWhile isValChar, u0, ?_, hv, ?_, h⟩
            · rw [← h2]
              exact (List.takeWhile_append_dropWhile isValChar s.toList).symm
            · exact List.all_eq_true.mpr (fun c hc => List.mem_takeWhile_imp hc)
  · rintro ⟨v, u, hsplit, hv, hall, hrec⟩
    have hu := recognized_unit_facts u hrec
    have htd := takeWhile_dropWhile_append isValChar v u.toList hall hu.2
    unfold dimValid dimExec dimExecL
    rw [hsplit, htd.1, htd.2]
    have hnone : ¬ ∃ x ∈ u.data, isValChar x = true := by
      simpa [List.any_eq_true] using hu.1
    have hmem : (u ∈ absUnits ∨ u ∈ objectProtoKeys) ∨ u ∈ relUnits := by
      simpa [inAbs2PX, or_assoc] using hrec
    rcases hmem with (hm | hm) | hm
    · simp [hv, hnone, string_mk_data, inAbs2PX, hm]
    · simp [hv, hnone, string_mk_data, inAbs2PX, hm]
    · simp [hv, hnone, string_mk_data, inAbs2PX, hm]

/-! ## Claim C10 -/

lemma prependSpanMargin_of_hasElem (h20 : String) (d : Dom)
    (h : hasElemChild d = true) : ∃ d2, prependSpanMargin h20 d = some d2 := by
  induction d with
  | nil => cases h
  | text s sib ih =>
      obtain ⟨d2, hd⟩ := ih (by simpa [hasElemChild] using h)
      exact ⟨.text s d2, by simp [prependSpanMargin, hd]⟩
  | elem tag attrs st child sib ihc ihs => exact ⟨_, rfl⟩

/-- C10: per-`<text>` totality of the conversion.  With nonempty flattened
content, if the effective font-size (the flattened element's `font-size`,
defaulting to "16px" when absent) contains no `[\d.]+`-run immediately
followed by "px", the baseline-compensation probe `/(?<size>[\d\.]+)px/`
fails and the conversion throws instead of producing a replacement block
(so e.g. "12pt" or "1.2em" throw); whereas with no font-size at all the
"16px" default applies and — the rich content offering a first element
child to prepend into, as pandoc's output always does — the conversion
returns a replacement block without error. -/
theorem text_converter_px_totality (pandocD : String → Dom)
    (attrs : List (String × String)) (st : Option (List SD)) (child : Dom)
    (hmd : ¬ serialize (flattenKids child) = "") :
    (pxExec (if getPropO (promoteFontSizes st child) "font-size" = "" then "16px"
             else getPropO (promoteFontSizes st child) "font-size") = none →
       convertTextElt pandocD attrs st child = .error ()) ∧
    (getPropO (promoteFontSizes st child) "font-size" = "" →
     (∀ s, hasElemChild (pandocD s) = true) →
     ∃ fo, convertTextElt pandocD attrs st child = .ok (some fo)) := by
  constructor
  · intro hpx
    unfold convertTextElt
    rw [if_neg hmd]
    dsimp only []
    rw [hpx]
  · intro hfs hP
    unfold convertTextElt
    rw [if_neg hmd]
    dsimp only []
    rw [hfs, if_pos (rfl : ("" : String) = ""),
      show pxExec "16px" = some "16" from rfl]
    dsimp only []
    by_cases heq : equationRegexTest (serialize (flattenKids child)) = true
    · rw [md2html, if_pos heq]
      exact ⟨_, rfl⟩
    · rw [md2html, if_neg heq]
      obtain ⟨d2, hd⟩ := prependSpanMargin_of_hasElem
        (jsToString (jsCeil (jsMul (some (20, 1)) (jsNumber "16"))) ++ "px")
        (pandocD (serialize (flattenKids child)))
        (hP (serialize (flattenKids child)))
      rw [hd]
      exact ⟨_, rfl⟩

/-- C10, witness: a `<text>` with `font-size: 12pt` throws; the same
element with no font-size converts without error. -/
theorem text_converter_px_totality_witness :
    convertTextElt pandocStub [("x", "0"), ("y", "0")]
      (some [("font-size", "12pt", "")]) (.text "hi" .nil) = .error () ∧
    (∃ fo, convertTextElt pandocStub [("x", "0"), ("y", "0")] none
      (.text "hi" .nil) = .ok (some fo)) := by
  constructor
  · exact (text_converter_px_totality pandocStub [("x", "0"), ("y", "0")]
      (some [("font-size", "12pt", "")]) (.text "hi" .nil) (by decide)).1 (by decide)
  · exact (text_converter_px_totality pandocStub [("x", "0"), ("y", "0")]
      none (.text "hi" .nil) (by decide)).2 (by decide) (fun s => rfl)
